import Mathlib

/-!
Verification of the Project-Initializer-CLI provisioning pipeline
(`src/main.py`, `src/config.py`) against its natural-language specification.

The Python source is shallowly embedded: pure decision logic becomes Lean
functions, and interactions with the operating system (subprocess execution,
`shutil.which`, `os.path.exists`, the working directory) are abstracted as
explicit oracle parameters, so every definition is executable and every
behaviour of the environment is quantified over.
-/

namespace ProjectInit

/-! ## String helpers

Python string primitives used by the source, re-implemented over `List Char`
so that all definitions evaluate inside the kernel:
`pat in s` (substring test), `s.split(" ")[0]`, `.strip()`, `.replace(...)`. -/

/-- `charsInfix pat s` decides whether `pat` occurs as a contiguous sublist of
`s`; this is Python's `pat in s` for strings. -/
def charsInfix (pat : List Char) : List Char → Bool
  | [] => pat.isPrefixOf []
  | c :: rest => pat.isPrefixOf (c :: rest) || charsInfix pat rest

/-- Python's substring test `pat in s`. -/
def strContains (s pat : String) : Bool :=
  charsInfix pat.toList s.toList

/-- Python's `s.split(" ")[0]`: the characters before the first space. -/
def firstWord (s : String) : String :=
  String.mk (s.toList.takeWhile (fun c => c ≠ ' '))

/-- Strip leading and trailing whitespace from a character list
(Python's `str.strip()`). -/
def trimChars (cs : List Char) : List Char :=
  ((cs.dropWhile Char.isWhitespace).reverse.dropWhile Char.isWhitespace).reverse

/-- Fuel-driven worker for `replaceStr`; the fuel is the length of the
subject string, which bounds the number of steps. -/
def replaceCharsAux : Nat → List Char → List Char → List Char → List Char
  | 0, s, _, _ => s
  | _ + 1, [], _, _ => []
  | n + 1, c :: rest, pat, rep =>
    if pat.isPrefixOf (c :: rest) then
      rep ++ replaceCharsAux n ((c :: rest).drop pat.length) pat rep
    else
      c :: replaceCharsAux n rest pat rep

/-- Python's `s.replace(pat, rep)` (left-to-right, non-overlapping). -/
def replaceStr (s pat rep : String) : String :=
  String.mk (replaceCharsAux s.toList.length s.toList pat.toList rep.toList)

/-! ## Package-manager resolution (`get_package_manager`, main.py 39-53)

`platform.system()` is passed in as the string it returns (`"Linux"`,
`"Darwin"`, `"Windows"`, or anything else), and `shutil.which` as a boolean
oracle on executable names. -/

/-- Embedding of `get_package_manager` (main.py 39-53): probe the platform
family's candidate managers in source order and return the first hit. -/
def get_package_manager (system : String) (which : String → Bool) : Option String :=
  if system = "Linux" then
    if which "apt-get" then some "apt-get"
    else if which "dnf" then some "dnf"
    else if which "yum" then some "yum"
    else if which "pacman" then some "pacman"
    else none
  else if system = "Darwin" then
    if which "brew" then some "brew" else none
  else if system = "Windows" then
    if which "winget" then some "winget"
    else if which "choco" then some "choco"
    else none
  else none

/-- The probe order of `get_package_manager`, per platform family, as data. -/
def managerCandidates (system : String) : List String :=
  if system = "Linux" then ["apt-get", "dnf", "yum", "pacman"]
  else if system = "Darwin" then ["brew"]
  else if system = "Windows" then ["winget", "choco"]
  else []

/-! ## Package installation (`install_packages`, main.py 55-149) -/

/-- Captured result of one external command (`subprocess.run` with captured
streams): exit code and captured stdout. -/
structure SubprocResult where
  exitCode : Nat
  stdout : String

/-- Environment oracle: what each command invocation would return. -/
def World := List String → SubprocResult

/-- The command-template table `commands` of `install_packages`
(main.py 69-100); `none` models a `KeyError` on lookup of a missing key. -/
structure CmdTemplate where
  update : List String
  install : List String
  check : List String
deriving DecidableEq, Repr

/-- Embedding of the dict literal `commands` and the lookup
`commands[package_manager]` (main.py 69-102). -/
def commandsTable (pm : String) : Option CmdTemplate :=
  if pm = "apt-get" then
    some ⟨["apt-get", "update"], ["apt-get", "install", "-y"], ["dpkg", "-s"]⟩
  else if pm = "yum" then
    some ⟨[], ["yum", "install", "-y"], ["rpm", "-q"]⟩
  else if pm = "dnf" then
    some ⟨[], ["dnf", "install", "-y"], ["rpm", "-q"]⟩
  else if pm = "pacman" then
    some ⟨["pacman", "-Syu", "--noconfirm"], ["pacman", "-S", "--noconfirm"], ["pacman", "-Q"]⟩
  else if pm = "brew" then
    some ⟨["brew", "update"], ["brew", "install"], ["brew", "list", "--versions"]⟩
  else if pm = "winget" then
    some ⟨[], ["winget", "install", "-e", "--accept-source-agreements", "--id"],
          ["winget", "list", "--id"]⟩
  else none

/-- `use_sudo` (main.py 66): elevate when not already admin and not Windows. -/
def useSudo (isAdmin isWindows : Bool) : Bool :=
  !isAdmin && !isWindows

/-- `cmd_map[key].insert(0, "sudo")` applied to non-empty templates when
`use_sudo` holds (main.py 105-108). -/
def sudoWrap (s : Bool) (cmd : List String) : List String :=
  if s && !cmd.isEmpty then "sudo" :: cmd else cmd

/-- The per-package check command (main.py 121-127): apt-get/yum/dnf/pacman
query by the first word of the package string, winget and brew by the full
package string. -/
def checkCmd (checkTmpl : List String) (pm package : String) : List String :=
  if pm = "apt-get" ∨ pm = "yum" ∨ pm = "dnf" ∨ pm = "pacman" then
    checkTmpl ++ [firstWord package]
  else
    checkTmpl ++ [package]

/-- The check outcome the source treats as "already installed"
(main.py 129-133): exit code 0, and for brew additionally the package string
occurring in the captured stdout (otherwise a `CalledProcessError` is raised
by hand). -/
def checkSucceeded (world : World) (pm : String) (checkTmpl : List String)
    (package : String) : Bool :=
  let res := world (checkCmd checkTmpl pm package)
  res.exitCode == 0 && (pm != "brew" || strContains res.stdout package)

/-- Recorded status of one package after its loop iteration
(main.py 118-149). -/
inductive PkgStatus where
  | alreadyInstalled
  | installed
  | installFailed
deriving DecidableEq, Repr

/-- One iteration of the package loop (main.py 118-149): returns the
commands invoked for this package, in order, and the recorded status.
A failed check (or a brew substring miss) falls into the install attempt;
a failed install is logged and the iteration ends normally. -/
def processPackage (world : World) (pm : String) (checkTmpl installT : List String)
    (package : String) : List (List String) × PkgStatus :=
  let ccmd := checkCmd checkTmpl pm package
  if checkSucceeded world pm checkTmpl package then
    ([ccmd], PkgStatus.alreadyInstalled)
  else
    let icmd := installT ++ [package]
    let ires := world icmd
    if ires.exitCode == 0 then
      ([ccmd, icmd], PkgStatus.installed)
    else
      ([ccmd, icmd], PkgStatus.installFailed)

/-- How a call to `install_packages` ends: early return because no packages
are configured for the manager (main.py 61-64), an escaped `KeyError` from
the template-table lookup (main.py 102), or normal completion with one
recorded status per package. -/
inductive InstallOutcome where
  | skipped
  | keyError
  | completed (statuses : List (String × PkgStatus))
deriving DecidableEq, Repr

/-- The observable trace of a call to `install_packages`: its outcome and
every external command it invoked, in order. -/
structure InstallRun where
  outcome : InstallOutcome
  invoked : List (List String)
deriving DecidableEq, Repr

/-- Embedding of `install_packages` (main.py 55-149). `packages_config` is
the `PACKAGES_TO_INSTALL` dict as an association list; `world` answers every
`subprocess.run`. The `update` command runs once before the loop when its
template is non-empty; its failure is only logged. -/
def install_packages (world : World) (isAdmin isWindows : Bool) (pm : String)
    (packages_config : List (String × List String)) : InstallRun :=
  match packages_config.lookup pm with
  | none => ⟨InstallOutcome.skipped, []⟩
  | some packages =>
    if packages.isEmpty then ⟨InstallOutcome.skipped, []⟩
    else
      match commandsTable pm with
      | none => ⟨InstallOutcome.keyError, []⟩
      | some tmpl =>
        let s := useSudo isAdmin isWindows
        let updateT := sudoWrap s tmpl.update
        let installT := sudoWrap s tmpl.install
        let updInvoked := if updateT.isEmpty then [] else [updateT]
        let runs := packages.map (fun p => (p, processPackage world pm tmpl.check installT p))
        ⟨InstallOutcome.completed (runs.map (fun r => (r.1, r.2.2))),
         updInvoked ++ (runs.map (fun r => r.2.1)).flatten⟩

/-! ## Working-directory discipline (`initialize_git_repo`, `main`)

Only the process working directory is tracked; each pipeline step is an
arbitrary oracle that, started in some directory, either completes normally
or raises, in both cases leaving the process in some directory. -/

/-- Result of running a block of code: normal completion or a raised
exception, each carrying the working directory left behind. -/
inductive Outcome where
  | ok (cwd : String)
  | raised (cwd : String)
deriving DecidableEq, Repr

/-- The working directory an `Outcome` left the process in. -/
def Outcome.cwd : Outcome → String
  | Outcome.ok c => c
  | Outcome.raised c => c

/-- A pipeline step as seen by the orchestrator: from a starting directory,
complete or raise, leaving some directory behind. -/
def StepBehavior := String → Outcome

/-- Run steps in sequence from a starting directory, stopping at the first
raise (Python's ordinary statement sequencing inside a `try` block). -/
def seqSteps : List StepBehavior → String → Outcome
  | [], cwd => Outcome.ok cwd
  | s :: rest, cwd =>
    match s cwd with
    | Outcome.ok c => seqSteps rest c
    | Outcome.raised c => Outcome.raised c

/-- Embedding of `initialize_git_repo` (main.py 152-196), restricted to its
working-directory behaviour. `gitOnPath` is `shutil.which("git")`;
`mkdirRaises` covers the unguarded `os.makedirs` before the `try` block
(main.py 165-167), which raises with the directory unchanged. `tryBlock` is
everything inside the `try` (the `os.chdir(repo_path)` included); whether it
completes or raises, the `except` clauses swallow the exception and the
`finally` block (main.py 195-196) changes back to `original_path`. -/
def init_git_repo (gitOnPath mkdirRaises : Bool) (entryCwd : String)
    (tryBlock : StepBehavior) : Outcome :=
  if !gitOnPath then Outcome.ok entryCwd
  else if mkdirRaises then Outcome.raised entryCwd
  else
    let original_path := entryCwd
    match tryBlock entryCwd with
    | Outcome.ok _ => Outcome.ok original_path
    | Outcome.raised _ => Outcome.ok original_path

/-- The `os.chdir(config.REPO_PATH)` statement of `main` (main.py 421): on
success the working directory becomes the project root, on failure it is
unchanged and an exception propagates. -/
def chdirStep (target : String) (chdirRaises : Bool) : StepBehavior :=
  fun cwd => if chdirRaises then Outcome.raised cwd else Outcome.ok target

/-- Embedding of `main` (main.py 396-455), restricted to its
working-directory behaviour: record `original_path`, run the six steps and
the directory change in order inside `try`, swallow any exception in
`except`, and in `finally` always `os.chdir(original_path)`. The function
returns the working directory the process ends in. -/
def mainRun (original_path repoPath : String) (chdirRaises : Bool)
    (installStep gitStep envStep venvStep hooksStep commitStep : StepBehavior) : String :=
  let body := seqSteps
    [installStep, gitStep, chdirStep repoPath chdirRaises,
     envStep, venvStep, hooksStep, commitStep] original_path
  match body with
  | Outcome.ok _ => original_path
  | Outcome.raised _ => original_path

/-! ## Environment variables (`setup_environment_variables`, main.py 199-276)

The project `.env` file is modelled as its list of lines (the source only
ever appends whole `KEY="VALUE"` lines and reads the file line by line). -/

/-- Python's `line.split('=', 1)[0].strip()` (main.py 218). -/
def keyOf (line : String) : String :=
  String.mk (trimChars (line.toList.takeWhile (fun c => c ≠ '=')))

/-- The `existing_keys` set read from the current `.env` contents
(main.py 212-218): the stripped text before the first `=` of every line
containing a `=`. -/
def existingKeys (lines : List String) : List String :=
  lines.filterMap fun line =>
    if line.toList.contains '=' then some (keyOf line) else none

/-- The line `f'{key}="{value}"'` appended for a new key (main.py 226). -/
def entryLine (key value : String) : String :=
  key ++ "=\"" ++ value ++ "\""

/-- Embedding of the project-env half of `setup_environment_variables`
(main.py 207-231): read the existing keys once, then append, in request
order, a `KEY="VALUE"` line for each key not already present; keys already
present are skipped. Returns the new contents of the `.env` file. -/
def setup_project_env (lines : List String)
    (project_vars : List (String × String)) : List String :=
  let existing_keys := existingKeys lines
  project_vars.foldl
    (fun acc kv =>
      if existing_keys.contains kv.1 then acc else acc ++ [entryLine kv.1 kv.2])
    lines

/-- The profile-file choice of the shell half of
`setup_environment_variables` (main.py 250-255): `.bashrc` when the shell
name contains `bash`, else `.zshrc` when it contains `zsh`, else
`.profile`. -/
def pickProfileFile (shell : String) : String :=
  if strContains shell "bash" then ".bashrc"
  else if strContains shell "zsh" then ".zshrc"
  else ".profile"

/-- Embedding of the shell-profile half of `setup_environment_variables`
(main.py 233-276): `none` when there are no configured lines or on Windows
(manual instructions only, nothing written); otherwise the chosen profile
file together with the lines actually appended — each configured line that
does not already occur as a substring of the existing file contents
(main.py 267). -/
def setup_shell_profile (isWindows : Bool) (shell : String)
    (existing_content : String) (profile_lines : List String) :
    Option (String × List String) :=
  if profile_lines.isEmpty then none
  else if isWindows then none
  else
    let profile_file :=
      if strContains shell "bash" then ".bashrc"
      else if strContains shell "zsh" then ".zshrc"
      else ".profile"
    let written := profile_lines.foldl
      (fun acc line =>
        if strContains existing_content line then acc else acc ++ [line])
      []
    some (profile_file, written)

/-! ## Command-line options

Modelled from the spec: the argument parser is an excluded collaborator
(spec §1, §6) and its code is not part of `src/`; per §6, `--name <string>`
overrides the project path and `--no-venv` disables the
RuntimeEnvironmentBuilder regardless of configuration. -/

/-- Modelled from the spec: the resolved options struct the pipeline
receives from the excluded argument parser (spec §6) — an optional `--name`
override and the `--no-venv` flag. -/
structure CliOptions where
  name : Option String
  noVenv : Bool
deriving DecidableEq, Repr

/-- Modelled from the spec: the project root path used by the pipeline —
the `--name` value when given, the configuration's path otherwise. -/
def effectiveRepoPath (cfgRepoPath : String) (opts : CliOptions) : String :=
  match opts.name with
  | some n => n
  | none => cfgRepoPath

/-- Modelled from the spec: whether the runtime-environment (venv) building
step runs — disabled by `--no-venv` regardless of the configuration's
enable flag. -/
def venvEnabled (cfgCreateVenv : Bool) (opts : CliOptions) : Bool :=
  if opts.noVenv then false else cfgCreateVenv

/-! ## Post-setup hooks (`execute_post_setup_hooks`, main.py 322-365) -/

/-- `os.path.join` of two components with the platform separator. -/
def pathJoin (isWindows : Bool) (a b : String) : String :=
  a ++ (if isWindows then "\\" else "/") ++ b

/-- The venv python path probed by `execute_post_setup_hooks`
(main.py 334-338): `venv/Scripts/python.exe` on Windows, `venv/bin/python`
elsewhere. -/
def venvPythonPath (isWindows : Bool) (venv_name : String) : String :=
  if isWindows then pathJoin true (pathJoin true venv_name "Scripts") "python.exe"
  else pathJoin false (pathJoin false venv_name "bin") "python"

/-- The venv pip path probed by `execute_post_setup_hooks`
(main.py 334-339). -/
def venvPipPath (isWindows : Bool) (venv_name : String) : String :=
  if isWindows then pathJoin true (pathJoin true venv_name "Scripts") "pip.exe"
  else pathJoin false (pathJoin false venv_name "bin") "pip"

/-- The fallback resolution of `execute_post_setup_hooks` (main.py 341-348):
each venv tool path is kept only when it exists on disk, otherwise replaced
by the system-wide `python3` / `pip3`. `existsOnDisk` is `os.path.exists`. -/
def resolveHookPaths (isWindows : Bool) (venv_name : String)
    (existsOnDisk : String → Bool) : String × String :=
  let python_exec := venvPythonPath isWindows venv_name
  let pip_exec := venvPipPath isWindows venv_name
  let python_exec := if existsOnDisk python_exec then python_exec else "python3"
  let pip_exec := if existsOnDisk pip_exec then pip_exec else "pip3"
  (python_exec, pip_exec)

/-- Placeholder substitution applied to one hook command (main.py 351-353):
replace `\x7b\x7bVENV_PYTHON\x7d\x7d` then `\x7b\x7bVENV_PIP\x7d\x7d`. -/
def applyTemplate (command python_exec pip_exec : String) : String :=
  replaceStr (replaceStr command "\x7b\x7bVENV_PYTHON\x7d\x7d" python_exec)
    "\x7b\x7bVENV_PIP\x7d\x7d" pip_exec

/-- Embedding of `execute_post_setup_hooks` (main.py 322-365), restricted to
the commands it hands to the shell: resolve the tool paths once, then
substitute them into every hook template in declared order. -/
def execute_post_setup_hooks (isWindows : Bool) (venv_name : String)
    (existsOnDisk : String → Bool) (commands : List String) : List String :=
  if commands.isEmpty then []
  else
    let resolved := resolveHookPaths isWindows venv_name existsOnDisk
    commands.map (fun c => applyTemplate c resolved.1 resolved.2)

/-! ## Helper lemmas -/

/-- Appending-if-new folds are filtered appends: folding "append `f x` unless
`p x`" over a list extends the accumulator by exactly the images of the
elements that fail `p`, in order. -/
theorem foldl_append_filter {α β : Type} (p : α → Bool) (f : α → β) :
    ∀ (l : List α) (acc : List β),
      l.foldl (fun acc x => if p x then acc else acc ++ [f x]) acc
        = acc ++ (l.filter (fun x => !p x)).map f := by
  intro l
  induction l with
  | nil => intro acc; simp
  | cons x t ih =>
    intro acc
    by_cases hx : p x
    · simp [hx, ih]
    · simp only [List.foldl_cons, List.filter_cons, hx]
      simp [ih (acc ++ [f x])]

/-- Inverting the `commands` table: a successful lookup pins down both the
manager name and its templates to one of the six table rows. -/
theorem commandsTable_cases (pm : String) (tmpl : CmdTemplate)
    (h : commandsTable pm = some tmpl) :
    (pm = "apt-get" ∧
       tmpl = ⟨["apt-get", "update"], ["apt-get", "install", "-y"], ["dpkg", "-s"]⟩)
    ∨ (pm = "yum" ∧ tmpl = ⟨[], ["yum", "install", "-y"], ["rpm", "-q"]⟩)
    ∨ (pm = "dnf" ∧ tmpl = ⟨[], ["dnf", "install", "-y"], ["rpm", "-q"]⟩)
    ∨ (pm = "pacman" ∧
       tmpl = ⟨["pacman", "-Syu", "--noconfirm"], ["pacman", "-S", "--noconfirm"],
               ["pacman", "-Q"]⟩)
    ∨ (pm = "brew" ∧
       tmpl = ⟨["brew", "update"], ["brew", "install"], ["brew", "list", "--versions"]⟩)
    ∨ (pm = "winget" ∧
       tmpl = ⟨[], ["winget", "install", "-e", "--accept-source-agreements", "--id"],
               ["winget", "list", "--id"]⟩) := by
  unfold commandsTable at h
  split_ifs at h <;> simp_all

/-- A check command is never equal to an install command, for any manager in
the table, any privilege context and any pair of package strings. -/
theorem check_ne_install (pm : String) (tmpl : CmdTemplate)
    (h : commandsTable pm = some tmpl) (s : Bool) (q p : String) :
    checkCmd tmpl.check pm q ≠ sudoWrap s tmpl.install ++ [p] := by
  rcases commandsTable_cases pm tmpl h with
    ⟨hpm, ht⟩ | ⟨hpm, ht⟩ | ⟨hpm, ht⟩ | ⟨hpm, ht⟩ | ⟨hpm, ht⟩ | ⟨hpm, ht⟩ <;>
    subst hpm <;> subst ht <;> cases s <;> simp [checkCmd, sudoWrap]

/-- The update command is never equal to an install command, for any manager
in the table (under one privilege context, as in a single run). -/
theorem update_ne_install (pm : String) (tmpl : CmdTemplate)
    (h : commandsTable pm = some tmpl) (s : Bool) (p : String) :
    sudoWrap s tmpl.update ≠ sudoWrap s tmpl.install ++ [p] := by
  rcases commandsTable_cases pm tmpl h with
    ⟨hpm, ht⟩ | ⟨hpm, ht⟩ | ⟨hpm, ht⟩ | ⟨hpm, ht⟩ | ⟨hpm, ht⟩ | ⟨hpm, ht⟩ <;>
    subst hpm <;> subst ht <;> cases s <;> simp [sudoWrap]

/-- A package whose check the source accepts is skipped: its iteration
invokes exactly the check command and records it as already installed. -/
theorem processPackage_skip (world : World) (pm : String)
    (checkTmpl installT : List String) (q : String)
    (h : checkSucceeded world pm checkTmpl q = true) :
    processPackage world pm checkTmpl installT q
      = ([checkCmd checkTmpl pm q], PkgStatus.alreadyInstalled) := by
  unfold processPackage
  simp [h]

/-- A package whose check the source rejects falls into the install attempt:
its iteration invokes the check then the install command, and records
success or failure by the install's exit code. -/
theorem processPackage_attempt (world : World) (pm : String)
    (checkTmpl installT : List String) (q : String)
    (h : checkSucceeded world pm checkTmpl q = false) :
    processPackage world pm checkTmpl installT q
      = ([checkCmd checkTmpl pm q, installT ++ [q]],
         if (world (installT ++ [q])).exitCode == 0 then PkgStatus.installed
         else PkgStatus.installFailed) := by
  unfold processPackage
  simp only [h, Bool.false_eq_true, if_false]
  split <;> simp

/-- Every command a package iteration invokes is that package's check
command or its install command. -/
theorem processPackage_invoked_cases (world : World) (pm : String)
    (checkTmpl installT : List String) (q : String) (cmd : List String)
    (h : cmd ∈ (processPackage world pm checkTmpl installT q).1) :
    cmd = checkCmd checkTmpl pm q ∨ cmd = installT ++ [q] := by
  by_cases hc : checkSucceeded world pm checkTmpl q = true
  · rw [processPackage_skip world pm checkTmpl installT q hc] at h
    simp at h
    exact Or.inl h
  · rw [processPackage_attempt world pm checkTmpl installT q
      (Bool.not_eq_true _ ▸ hc)] at h
    simp at h
    tauto

/-- Normal form of `install_packages` when packages are configured and the
manager is in the table. -/
theorem install_packages_completed (world : World) (isAdmin isWindows : Bool)
    (pm : String) (packages_config : List (String × List String))
    (packages : List String) (tmpl : CmdTemplate)
    (hcfg : packages_config.lookup pm = some packages)
    (hne : packages ≠ [])
    (htmpl : commandsTable pm = some tmpl) :
    install_packages world isAdmin isWindows pm packages_config =
      ⟨InstallOutcome.completed
         (packages.map fun q =>
           (q, (processPackage world pm tmpl.check
                 (sudoWrap (useSudo isAdmin isWindows) tmpl.install) q).2)),
       (if (sudoWrap (useSudo isAdmin isWindows) tmpl.update).isEmpty then []
        else [sudoWrap (useSudo isAdmin isWindows) tmpl.update])
       ++ (packages.map fun q =>
             (processPackage world pm tmpl.check
               (sudoWrap (useSudo isAdmin isWindows) tmpl.install) q).1).flatten⟩ := by
  have hE : packages.isEmpty = false := by
    cases packages with
    | nil => exact absurd rfl hne
    | cons a t => rfl
  unfold install_packages
  rw [hcfg]
  simp only [hE, htmpl, Bool.false_eq_true, if_false, List.map_map]
  rfl

/-! ## Claim theorems -/

/-- C1: for every run of `main`, whatever each step does — complete normally
or raise, leaving the working directory anywhere — and whether or not the
`os.chdir(config.REPO_PATH)` transition itself fails, the `finally` block
runs and the process ends in the directory recorded before the run; and the
scaffolding step `initialize_git_repo` likewise leaves the working directory
where it found it on every one of its exit paths. -/
theorem main_restores_working_directory (original_path repoPath : String)
    (chdirRaises : Bool)
    (installStep gitStep envStep venvStep hooksStep commitStep : StepBehavior)
    (gitOnPath mkdirRaises : Bool) (entryCwd : String) (tryBlock : StepBehavior) :
    mainRun original_path repoPath chdirRaises installStep gitStep envStep
      venvStep hooksStep commitStep = original_path
    ∧ (init_git_repo gitOnPath mkdirRaises entryCwd tryBlock).cwd = entryCwd := by
  constructor
  · unfold mainRun
    dsimp only
    split <;> rfl
  · unfold init_git_repo
    split
    · rfl
    · split
      · rfl
      · cases tryBlock entryCwd <;> rfl

/-- C5: the project-env writer is additive — the previous file contents are
kept unchanged as a prefix, keys whose stripped text before the first `=`
already occurs in the file are dropped, and every other requested key is
appended, in request order, as a `KEY="VALUE"` line; in particular writing
`A=1` and then `A=2, B=3` leaves `A="1"` unchanged and adds only `B="3"`. -/
theorem project_env_additive (lines : List String)
    (project_vars : List (String × String)) :
    setup_project_env lines project_vars
      = lines ++ ((project_vars.filter
            fun kv => !(existingKeys lines).contains kv.1).map
            fun kv => entryLine kv.1 kv.2)
    ∧ setup_project_env (setup_project_env [] [("A", "1")]) [("A", "2"), ("B", "3")]
      = ["A=\"1\"", "B=\"3\""] := by
  constructor
  · unfold setup_project_env
    exact foldl_append_filter _ _ project_vars lines
  · decide

/-- C6, counterexample: on Windows with `choco` on the path but `winget`
absent, the resolver returns `"choco"`, which is not `none` and not one of
the six identifiers the claim enumerates. -/
theorem resolver_choco_counterexample :
    get_package_manager "Windows" (fun s => s == "choco") = some "choco"
    ∧ "choco" ∉ (["apt-get", "dnf", "yum", "pacman", "brew", "winget"] :
        List String) := by
  decide

/-- C6, amended: the resolver probes the candidate managers of the platform
family in the fixed priority order Linux: apt-get > dnf > yum > pacman,
macOS: brew, Windows: winget > choco, returns the first match, and its
result is always one of {apt-get, dnf, yum, pacman, brew, winget, choco}
(or `none` when no candidate is found). -/
theorem resolver_priority_amended (system : String) (which : String → Bool) :
    get_package_manager system which = (managerCandidates system).find? which
    ∧ ∀ m, get_package_manager system which = some m →
        m ∈ ["apt-get", "dnf", "yum", "pacman", "brew", "winget", "choco"] := by
  have h1 : get_package_manager system which
      = (managerCandidates system).find? which := by
    unfold get_package_manager managerCandidates
    split_ifs <;> simp [List.find?, *]
  refine ⟨h1, fun m hm => ?_⟩
  rw [h1] at hm
  have hmem := List.mem_of_find?_eq_some hm
  unfold managerCandidates at hmem
  split_ifs at hmem <;> simp_all
  all_goals tauto

/-- C6, witness: on a Windows host exposing only `choco`, the resolver
returns the first match of its probe order, and that result is in the
amended identifier set. -/
theorem resolver_priority_amended_witness :
    get_package_manager "Windows" (fun s => s == "choco")
      = (managerCandidates "Windows").find? (fun s => s == "choco")
    ∧ "choco" ∈ ["apt-get", "dnf", "yum", "pacman", "brew", "winget", "choco"] :=
  ⟨(resolver_priority_amended "Windows" (fun s => s == "choco")).1,
   (resolver_priority_amended "Windows" (fun s => s == "choco")).2 "choco"
     (by decide)⟩

/-- C7: `--name <string>` overrides the project root path used by the
pipeline, and `--no-venv` disables the runtime-environment building step
regardless of the configuration's enable flag. (The argument parser is an
excluded collaborator; its contract is modelled from spec §6.) -/
theorem cli_flags_override (cfgRepoPath n : String) (b cfgCreateVenv : Bool)
    (nm : Option String) :
    effectiveRepoPath cfgRepoPath ⟨some n, b⟩ = n
    ∧ venvEnabled cfgCreateVenv ⟨nm, true⟩ = false :=
  ⟨rfl, rfl⟩

/-- C8, counterexample: for the shell `/bin/sh` — which is not zsh — the
writer picks `.profile`, not `.bashrc` as the claim states for every
non-zsh case. -/
theorem profile_fallback_counterexample :
    setup_shell_profile false "/bin/sh" ""
        ["export MY_GLOBAL_TOOL_PATH=\"/opt/my-tools\""]
      = some (".profile", ["export MY_GLOBAL_TOOL_PATH=\"/opt/my-tools\""])
    ∧ ".profile" ≠ ".bashrc" := by
  decide

/-- C8, amended: on non-Windows platforms, when shell-scoped profile lines
are configured, the profile file is chosen by substring inspection of the
active shell name — `.bashrc` when it contains `bash`, otherwise `.zshrc`
when it contains `zsh`, otherwise `.profile` — and a configured line already
occurring verbatim (as a substring) in the file is not appended again, while
lines not yet present are appended. -/
theorem profile_selection_amended (shell existing_content : String)
    (profile_lines : List String) (line : String)
    (hne : profile_lines ≠ []) :
    setup_shell_profile false shell existing_content profile_lines
      = some (pickProfileFile shell,
              profile_lines.filter fun l => !strContains existing_content l)
    ∧ (pickProfileFile shell = ".bashrc" ↔ strContains shell "bash" = true)
    ∧ (pickProfileFile shell = ".zshrc" ↔
        (strContains shell "bash" = false ∧ strContains shell "zsh" = true))
    ∧ (strContains existing_content line = true →
        line ∉ profile_lines.filter fun l => !strContains existing_content l) := by
  have hE : profile_lines.isEmpty = false := by
    cases profile_lines with
    | nil => exact absurd rfl hne
    | cons a t => rfl
  refine ⟨?_, ?_, ?_, ?_⟩
  · unfold setup_shell_profile pickProfileFile
    simp only [hE, Bool.false_eq_true, if_false]
    rw [foldl_append_filter (fun l => strContains existing_content l)
      (fun l => l) profile_lines []]
    simp [List.map_id]
  · unfold pickProfileFile
    by_cases hb : strContains shell "bash" <;>
      by_cases hz : strContains shell "zsh" <;> simp [hb, hz]
  · unfold pickProfileFile
    by_cases hb : strContains shell "bash" <;>
      by_cases hz : strContains shell "zsh" <;> simp [hb, hz]
  · intro h hmem
    rw [List.mem_filter] at hmem
    simp [h] at hmem

/-- C8, witness: a concrete zsh shell, one line already present in the file
and one line absent. -/
theorem profile_selection_amended_witness :
    setup_shell_profile false "/usr/bin/zsh" "export OLD=\"1\"\n"
        ["export OLD=\"1\"", "export NEW=\"2\""]
      = some (pickProfileFile "/usr/bin/zsh",
              ["export OLD=\"1\"", "export NEW=\"2\""].filter
                fun l => !strContains "export OLD=\"1\"\n" l)
    ∧ (pickProfileFile "/usr/bin/zsh" = ".bashrc"
        ↔ strContains "/usr/bin/zsh" "bash" = true)
    ∧ (pickProfileFile "/usr/bin/zsh" = ".zshrc" ↔
        (strContains "/usr/bin/zsh" "bash" = false
          ∧ strContains "/usr/bin/zsh" "zsh" = true))
    ∧ (strContains "export OLD=\"1\"\n" "export OLD=\"1\"" = true →
        "export OLD=\"1\"" ∉ ["export OLD=\"1\"", "export NEW=\"2\""].filter
          fun l => !strContains "export OLD=\"1\"\n" l) :=
  profile_selection_amended "/usr/bin/zsh" "export OLD=\"1\"\n"
    ["export OLD=\"1\"", "export NEW=\"2\""] "export OLD=\"1\"" (by decide)

/-- C9: the two venv tools fall back independently — whenever the venv
python executable does not exist at its platform-specific path under the
venv directory, the resolved python tool is the system-wide fallback
`python3` (whatever the pip probe finds), and likewise a missing venv pip
resolves to `pip3` (whatever the python probe finds); and every hook
command has its placeholders substituted with exactly the resolved pair —
so a missing tool's placeholder is never replaced by an empty or
nonexistent venv path. -/
theorem hook_fallback (isWindows : Bool) (venv_name : String)
    (existsOnDisk : String → Bool) (cmds : List String) :
    (existsOnDisk (venvPythonPath isWindows venv_name) = false →
      (resolveHookPaths isWindows venv_name existsOnDisk).1 = "python3")
    ∧ (existsOnDisk (venvPipPath isWindows venv_name) = false →
      (resolveHookPaths isWindows venv_name existsOnDisk).2 = "pip3")
    ∧ execute_post_setup_hooks isWindows venv_name existsOnDisk cmds
        = cmds.map fun c => applyTemplate c
            (resolveHookPaths isWindows venv_name existsOnDisk).1
            (resolveHookPaths isWindows venv_name existsOnDisk).2 := by
  refine ⟨?_, ?_, ?_⟩
  · intro hpy
    unfold resolveHookPaths
    simp [hpy]
  · intro hpip
    unfold resolveHookPaths
    simp [hpip]
  · unfold execute_post_setup_hooks
    cases cmds with
    | nil => rfl
    | cons c t => rfl

/-- C9, witness: the mixed case the per-tool claim covers — the venv python
exists on disk but the venv pip does not, so only the pip side falls back —
together with the python side falling back when no venv exists at all, and
the substitution of the configured `pip freeze` hook with the resolved
pair. -/
theorem hook_fallback_witness :
    (fun s => s == ".venv/bin/python") (venvPythonPath false ".venv") = true
    ∧ (resolveHookPaths false ".venv" (fun s => s == ".venv/bin/python")).2 = "pip3"
    ∧ (resolveHookPaths false ".venv" (fun _ => false)).1 = "python3"
    ∧ execute_post_setup_hooks false ".venv" (fun s => s == ".venv/bin/python")
        ["\x7b\x7bVENV_PIP\x7d\x7d freeze > requirements.txt"]
      = ["\x7b\x7bVENV_PIP\x7d\x7d freeze > requirements.txt"].map
          fun c => applyTemplate c
            (resolveHookPaths false ".venv" (fun s => s == ".venv/bin/python")).1
            (resolveHookPaths false ".venv" (fun s => s == ".venv/bin/python")).2 :=
  ⟨by decide,
   (hook_fallback false ".venv" (fun s => s == ".venv/bin/python") []).2.1 (by decide),
   (hook_fallback false ".venv" (fun _ => false) []).1 rfl,
   (hook_fallback false ".venv" (fun s => s == ".venv/bin/python")
     ["\x7b\x7bVENV_PIP\x7d\x7d freeze > requirements.txt"]).2.2⟩

/-- C10: on Windows with `choco` present but `winget` absent, the resolver
returns `"choco"`; that key has no row in the command-template table, so
`install_packages` — called with any configuration that lists packages for
`choco` — ends in the `KeyError` of the template lookup (modelled by the
`keyError` outcome, the exception escaping the function) having invoked no
command: no package is checked or installed. -/
theorem choco_key_error (which : String → Bool) (world : World) (isAdmin : Bool)
    (packages_config : List (String × List String)) (ps : List String)
    (hw : which "winget" = false) (hc : which "choco" = true)
    (hcfg : packages_config.lookup "choco" = some ps) (hps : ps ≠ []) :
    get_package_manager "Windows" which = some "choco"
    ∧ commandsTable "choco" = none
    ∧ install_packages world isAdmin true "choco" packages_config
        = ⟨InstallOutcome.keyError, []⟩ := by
  have hE : ps.isEmpty = false := by
    cases ps with
    | nil => exact absurd rfl hps
    | cons a t => rfl
  refine ⟨?_, rfl, ?_⟩
  · unfold get_package_manager
    simp [hw, hc]
  · unfold install_packages
    rw [hcfg]
    simp only [hE, Bool.false_eq_true, if_false]
    rfl

/-- C10, witness: a Windows host with only `choco` on the path and a
configuration listing one choco package. -/
theorem choco_key_error_witness :
    get_package_manager "Windows" (fun s => s == "choco") = some "choco"
    ∧ commandsTable "choco" = none
    ∧ install_packages (fun _ => ⟨0, ""⟩) false true "choco" [("choco", ["git"])]
        = ⟨InstallOutcome.keyError, []⟩ :=
  choco_key_error (fun s => s == "choco") (fun _ => ⟨0, ""⟩) false
    [("choco", ["git"])] ["git"] (by decide) (by decide) (by decide) (by decide)

/-- C2: for every package in the requested list whose check command succeeds
(exit code 0, and for brew additionally the captured stdout containing the
package token), the installer records it as already installed — every status
entry for that package is `alreadyInstalled` — and never invokes the install
command for that package. -/
theorem check_before_install (world : World) (isAdmin isWindows : Bool)
    (pm : String) (packages_config : List (String × List String))
    (packages : List String) (tmpl : CmdTemplate) (p : String)
    (hcfg : packages_config.lookup pm = some packages)
    (htmpl : commandsTable pm = some tmpl)
    (hp : p ∈ packages)
    (hexit : (world (checkCmd tmpl.check pm p)).exitCode = 0)
    (hbrew : pm = "brew" →
      strContains (world (checkCmd tmpl.check pm p)).stdout p = true) :
    ∃ sts, (install_packages world isAdmin isWindows pm packages_config).outcome
        = InstallOutcome.completed sts
      ∧ (p, PkgStatus.alreadyInstalled) ∈ sts
      ∧ (∀ st, (p, st) ∈ sts → st = PkgStatus.alreadyInstalled)
      ∧ sudoWrap (useSudo isAdmin isWindows) tmpl.install ++ [p]
          ∉ (install_packages world isAdmin isWindows pm packages_config).invoked := by
  have hchk : checkSucceeded world pm tmpl.check p = true := by
    unfold checkSucceeded
    by_cases hb : pm = "brew"
    · subst hb
      simp [hexit, hbrew rfl]
    · simp [hexit, hb]
  have hrun := install_packages_completed world isAdmin isWindows pm
    packages_config packages tmpl hcfg (List.ne_nil_of_mem hp) htmpl
  rw [hrun]
  refine ⟨_, rfl, ?_, ?_, ?_⟩
  · have hmm := List.mem_map_of_mem
      (f := fun q => (q, (processPackage world pm tmpl.check
        (sudoWrap (useSudo isAdmin isWindows) tmpl.install) q).2)) hp
    dsimp only at hmm
    rw [processPackage_skip world pm tmpl.check
      (sudoWrap (useSudo isAdmin isWindows) tmpl.install) p hchk] at hmm
    simpa using hmm
  · intro st hst
    rw [List.mem_map] at hst
    obtain ⟨q, hq, heq⟩ := hst
    have hq1 : q = p := congrArg Prod.fst heq
    subst hq1
    have h2 := congrArg Prod.snd heq
    dsimp only at h2
    rw [processPackage_skip world pm tmpl.check
      (sudoWrap (useSudo isAdmin isWindows) tmpl.install) q hchk] at h2
    exact h2.symm
  · intro hmem
    rcases List.mem_append.1 hmem with hupd | hflat
    · revert hupd
      split
      · exact List.not_mem_nil _
      · intro hupd
        rw [List.mem_singleton] at hupd
        exact update_ne_install pm tmpl htmpl (useSudo isAdmin isWindows) p hupd.symm
    · rw [List.mem_flatten] at hflat
      obtain ⟨l, hl, hin⟩ := hflat
      rw [List.mem_map] at hl
      obtain ⟨q, hq, rfl⟩ := hl
      rcases processPackage_invoked_cases world pm tmpl.check _ q _ hin with h1 | h1
      · exact check_ne_install pm tmpl htmpl (useSudo isAdmin isWindows) q p h1.symm
      · have hpq : p = q := by
          have h2 := List.append_cancel_left h1
          simpa using h2
        subst hpq
        rw [processPackage_skip world pm tmpl.check _ p hchk] at hin
        rw [List.mem_singleton] at hin
        exact check_ne_install pm tmpl htmpl (useSudo isAdmin isWindows) p p hin.symm

/-- C2, witness: one apt-get package whose check exits 0 is recorded as
already installed and its install command is never run. -/
theorem check_before_install_witness :
    ∃ sts, (install_packages (fun _ => ⟨0, ""⟩) true false "apt-get"
        [("apt-get", ["git"])]).outcome = InstallOutcome.completed sts
      ∧ ("git", PkgStatus.alreadyInstalled) ∈ sts
      ∧ (∀ st, ("git", st) ∈ sts → st = PkgStatus.alreadyInstalled)
      ∧ sudoWrap (useSudo true false)
          (⟨["apt-get", "update"], ["apt-get", "install", "-y"],
            ["dpkg", "-s"]⟩ : CmdTemplate).install ++ ["git"]
          ∉ (install_packages (fun _ => ⟨0, ""⟩) true false "apt-get"
              [("apt-get", ["git"])]).invoked :=
  check_before_install (fun _ => ⟨0, ""⟩) true false "apt-get"
    [("apt-get", ["git"])] ["git"]
    ⟨["apt-get", "update"], ["apt-get", "install", "-y"], ["dpkg", "-s"]⟩ "git"
    (by decide) rfl (by decide) rfl (by decide)

/-- C3: for brew, a check that exits 0 but whose captured stdout does not
contain the queried package token is treated as absent — the package is
never recorded as already installed and its install command is invoked. -/
theorem brew_substring_miss_installs (world : World) (isAdmin isWindows : Bool)
    (packages_config : List (String × List String)) (packages : List String)
    (p : String)
    (hcfg : packages_config.lookup "brew" = some packages)
    (hp : p ∈ packages)
    (hexit : (world (checkCmd ["brew", "list", "--versions"] "brew" p)).exitCode = 0)
    (hmiss : strContains
        (world (checkCmd ["brew", "list", "--versions"] "brew" p)).stdout p
      = false) :
    ∃ sts, (install_packages world isAdmin isWindows "brew" packages_config).outcome
        = InstallOutcome.completed sts
      ∧ (∀ st, (p, st) ∈ sts → st ≠ PkgStatus.alreadyInstalled)
      ∧ sudoWrap (useSudo isAdmin isWindows) ["brew", "install"] ++ [p]
          ∈ (install_packages world isAdmin isWindows "brew" packages_config).invoked := by
  have htmpl : commandsTable "brew" = some
      ⟨["brew", "update"], ["brew", "install"], ["brew", "list", "--versions"]⟩ := rfl
  have hchk : checkSucceeded world "brew" ["brew", "list", "--versions"] p = false := by
    unfold checkSucceeded
    simp [hmiss]
  have hrun := install_packages_completed world isAdmin isWindows "brew"
    packages_config packages _ hcfg (List.ne_nil_of_mem hp) htmpl
  rw [hrun]
  refine ⟨_, rfl, ?_, ?_⟩
  · intro st hst
    rw [List.mem_map] at hst
    obtain ⟨q, hq, heq⟩ := hst
    have hq1 : q = p := congrArg Prod.fst heq
    subst hq1
    have h2 := congrArg Prod.snd heq
    dsimp only at h2
    rw [processPackage_attempt world "brew" ["brew", "list", "--versions"]
      (sudoWrap (useSudo isAdmin isWindows) ["brew", "install"]) q hchk] at h2
    intro hcontra
    rw [hcontra] at h2
    dsimp only at h2
    split at h2 <;> exact absurd h2 (by decide)
  · rw [List.mem_append]
    right
    rw [List.mem_flatten]
    refine ⟨_, List.mem_map_of_mem
      (f := fun q => (processPackage world "brew" ["brew", "list", "--versions"]
        (sudoWrap (useSudo isAdmin isWindows) ["brew", "install"]) q).1) hp, ?_⟩
    dsimp only
    rw [processPackage_attempt world "brew" ["brew", "list", "--versions"]
      (sudoWrap (useSudo isAdmin isWindows) ["brew", "install"]) p hchk]
    simp

/-- C3, witness: a brew check exiting 0 with stdout not containing the
package leads to an install attempt and no "already installed" status. -/
theorem brew_substring_miss_installs_witness :
    ∃ sts, (install_packages (fun _ => ⟨0, "other"⟩) true false "brew"
        [("brew", ["git"])]).outcome = InstallOutcome.completed sts
      ∧ (∀ st, ("git", st) ∈ sts → st ≠ PkgStatus.alreadyInstalled)
      ∧ sudoWrap (useSudo true false) ["brew", "install"] ++ ["git"]
          ∈ (install_packages (fun _ => ⟨0, "other"⟩) true false "brew"
              [("brew", ["git"])]).invoked :=
  brew_substring_miss_installs (fun _ => ⟨0, "other"⟩) true false
    [("brew", ["git"])] ["git"] "git" (by decide) (by decide) rfl (by decide)

/-- C4: a package whose install command exits non-zero is recorded as failed
and the installer still completes normally with one recorded status per
requested package, in order — an individual install failure aborts neither
the remainder of the package loop nor the rest of the pipeline. -/
theorem install_failure_continues (world : World) (isAdmin isWindows : Bool)
    (pm : String) (packages_config : List (String × List String))
    (packages : List String) (tmpl : CmdTemplate) (p : String)
    (hcfg : packages_config.lookup pm = some packages)
    (htmpl : commandsTable pm = some tmpl)
    (hp : p ∈ packages)
    (hchk : checkSucceeded world pm tmpl.check p = false)
    (hfail : (world (sudoWrap (useSudo isAdmin isWindows) tmpl.install ++ [p])).exitCode
      ≠ 0) :
    ∃ sts, (install_packages world isAdmin isWindows pm packages_config).outcome
        = InstallOutcome.completed sts
      ∧ (p, PkgStatus.installFailed) ∈ sts
      ∧ sts.map Prod.fst = packages := by
  have hrun := install_packages_completed world isAdmin isWindows pm
    packages_config packages tmpl hcfg (List.ne_nil_of_mem hp) htmpl
  rw [hrun]
  refine ⟨_, rfl, ?_, ?_⟩
  · have hmm := List.mem_map_of_mem
      (f := fun q => (q, (processPackage world pm tmpl.check
        (sudoWrap (useSudo isAdmin isWindows) tmpl.install) q).2)) hp
    dsimp only at hmm
    rw [processPackage_attempt world pm tmpl.check
      (sudoWrap (useSudo isAdmin isWindows) tmpl.install) p hchk] at hmm
    simpa [hfail] using hmm
  · simp [List.map_map, Function.comp_def]

/-- C4, witness: one apt-get package whose check and install both exit 1 is
recorded as failed while the call completes with a status for every
package. -/
theorem install_failure_continues_witness :
    ∃ sts, (install_packages (fun _ => ⟨1, ""⟩) true false "apt-get"
        [("apt-get", ["git"])]).outcome = InstallOutcome.completed sts
      ∧ ("git", PkgStatus.installFailed) ∈ sts
      ∧ sts.map Prod.fst = ["git"] :=
  install_failure_continues (fun _ => ⟨1, ""⟩) true false "apt-get"
    [("apt-get", ["git"])] ["git"]
    ⟨["apt-get", "update"], ["apt-get", "install", "-y"], ["dpkg", "-s"]⟩ "git"
    (by decide) rfl (by decide) (by decide) (by decide)

end ProjectInit

